import Mathlib

/-!
Shallow embedding of the wallet-based ("MetaMask") nonce-challenge
authentication flow of the cms_backend repository.

The repository contains several near-duplicate Express servers.  We embed the
auth routes of each variant that the specification's claims refer to:

* `serverA` — `src/server.js`, first server ("FIXED METAMASK AUTH (Option A)"),
  routes `POST /auth/request-nonce` and `POST /auth/verify`.
* `ethersV` — `src/unnamed/part_002`, first server (ethers.js variant).
* `mwV`     — `src/unnamed/part_002`, second server (multi-wallet variant).
* `legacyV` — `src/unnamed/part_002`, third server (legacy variant).
* `p3V`     — `src/unnamed/part_003` (userId variant, numeric nonce).
* `mw1`     — `src/unnamed/part_001`, first server (multi-wallet variant):
  its `/auth/request-nonce` catch handler.

Modelling conventions:
* The Mongo store is a list of account records; `findOne` is `List.find?`
  (first match), and saving a found document's new nonce replaces the first
  matching record.
* Request bodies are `Option String` fields (`none` = absent).  JavaScript's
  falsy test `if (!x)` treats both `undefined` and `""` as missing, and the
  embedding mirrors that.
* The external crypto pipeline (hashPersonalMessage + fromRpcSig + ecrecover +
  pubToAddress + bufferToHex, or ethers.verifyMessage) is abstracted as
  `Env.recover message signature : Option String`, returning the recovered
  address, with `none` modelling a thrown exception (caught as HTTP 500).
* `jwt.sign` is abstracted as `Env.sign` (payload `{ wallet }` / `{ userId }`)
  and `Env.signM` (multi-wallet payload `{ id, wallets }`).
* `Math.floor(Math.random() * 1000000)` draws are passed in as explicit
  parameters (`fresh`); the generator itself is embedded as `genNonce` over
  exact rationals.
-/

/-- Model of JavaScript's `String.prototype.toLowerCase()`: lower-case every
character.  (Defined via `String.mk` over the character list so that concrete
instances reduce inside the kernel; on the ASCII wallet strings involved this
agrees with `String.toLower`.) -/
def lowerStr (s : String) : String := String.mk (s.data.map Char.toLower)

/-- An HTTP JSON response: status code plus the optional JSON fields that the
various handlers put into the body. -/
structure Resp where
  status : Nat
  message : Option String := none
  error : Option String := none
  stack : Option String := none
  wallet : Option String := none
  userId : Option String := none
  nonce : Option String := none
  nonceNat : Option Nat := none
  token : Option String := none
deriving DecidableEq, Repr

/-- External collaborators: signature recovery (`none` models a thrown
exception) and JWT signing. -/
structure Env where
  recover : String → String → Option String
  sign : String → String
  signM : List String → String

/-- Single-wallet account record (`server.js`, ethers and legacy variants):
`{ wallet: String, nonce: String }`. -/
structure UserW where
  wallet : String
  nonce : String
deriving DecidableEq, Repr

/-- Multi-wallet account record (part_001/part_002 multi-wallet variants):
`{ wallets: [String], nonce: String }`. -/
structure UserM where
  wallets : List String
  nonce : String
deriving DecidableEq, Repr

/-- part_003 account record: `{ userId: String, nonce: Number }`. -/
structure UserN where
  userId : String
  nonce : Nat
deriving DecidableEq, Repr

/-- `User.findOne({ wallet })`: first record whose wallet equals `w`. -/
def findW (w : String) (store : List UserW) : Option UserW :=
  store.find? (fun u => u.wallet == w)

/-- Save a new nonce on the document `findOne({ wallet: w })` returned:
replace the nonce of the first record whose wallet is `w`. -/
def setNonceW (w fresh : String) : List UserW → List UserW
  | [] => []
  | u :: rest =>
    if u.wallet == w then { u with nonce := fresh } :: rest
    else u :: setNonceW w fresh rest

/-- `User.findOne({ wallets: w })`: first record whose wallets array
contains `w`. -/
def findM (w : String) (store : List UserM) : Option UserM :=
  store.find? (fun u => u.wallets.contains w)

/-- Replace the nonce of the first record whose wallets array contains `w`. -/
def setNonceM (w fresh : String) : List UserM → List UserM
  | [] => []
  | u :: rest =>
    if u.wallets.contains w then { u with nonce := fresh } :: rest
    else u :: setNonceM w fresh rest

/-- `User.findOne({ userId })`: first record whose userId equals `w`. -/
def findN (w : String) (store : List UserN) : Option UserN :=
  store.find? (fun u => u.userId == w)

/-- Replace the nonce of the first record whose userId is `w`. -/
def setNonceN (w : String) (fresh : Nat) : List UserN → List UserN
  | [] => []
  | u :: rest =>
    if u.userId == w then { u with nonce := fresh } :: rest
    else u :: setNonceN w fresh rest

namespace serverA

/-- The canonical challenge message of `src/server.js` line 115:
`` `Login nonce: ${user.nonce}` ``. -/
def message (nonce : String) : String := "Login nonce: " ++ nonce

/-- `POST /auth/request-nonce` of `src/server.js` (lines 82-100).
`fresh` is the `Math.floor(Math.random()*1000000).toString()` draw used
either by the schema default (creation) or the explicit rotation. -/
def requestNonce (fresh : String) (store : List UserW) (walletIn : Option String) :
    Resp × List UserW :=
  match walletIn with
  | none => ({ status := 400, message := some "Wallet address required" }, store)
  | some w0 =>
    let wallet := lowerStr w0
    if wallet == "" then
      ({ status := 400, message := some "Wallet address required" }, store)
    else
      match findW wallet store with
      | none =>
        ({ status := 200, wallet := some wallet, nonce := some fresh },
         store ++ [⟨wallet, fresh⟩])
      | some _ =>
        ({ status := 200, wallet := some wallet, nonce := some fresh },
         setNonceW wallet fresh store)

/-- `POST /auth/verify` of `src/server.js` (lines 103-141).  The guard
`if (!wallet || !signature)` fires when either body field is absent or is the
empty string (both falsy), after the wallet has been lower-cased. -/
def verify (env : Env) (fresh : String) (store : List UserW)
    (walletIn sigIn : Option String) : Resp × List UserW :=
  match walletIn, sigIn with
  | some w0, some sig =>
    let wallet := lowerStr w0
    if wallet == "" || sig == "" then
      ({ status := 400, message := some "Wallet and signature required" }, store)
    else
    match findW wallet store with
    | none => ({ status := 404, message := some "User not found" }, store)
    | some u =>
      match env.recover (message u.nonce) sig with
      | none =>
        ({ status := 500, message := some "Server error verifying signature" }, store)
      | some recovered =>
        if lowerStr recovered == lowerStr wallet then
          ({ status := 200, message := some "Login success",
             token := some (env.sign wallet), wallet := some wallet },
           setNonceW wallet fresh store)
        else
          ({ status := 401, message := some "Signature verification failed" }, store)
  | _, _ =>
    ({ status := 400, message := some "Wallet and signature required" }, store)

end serverA

namespace ethersV

/-- The challenge message of `src/unnamed/part_002` line 70:
`` `Login nonce: ${user.nonce}` ``. -/
def message (nonce : String) : String := "Login nonce: " ++ nonce

/-- `POST /auth/request-nonce` of the ethers variant
(`src/unnamed/part_002` lines 39-60).  Note: the wallet is used as supplied,
with no lower-casing or trimming; the nonce is drawn once and used for both
the create and the update path; the response body is `{ nonce }` only. -/
def requestNonce (fresh : String) (store : List UserW) (walletIn : Option String) :
    Resp × List UserW :=
  match walletIn with
  | none => ({ status := 400, error := some "Wallet required" }, store)
  | some wallet =>
    if wallet == "" then
      ({ status := 400, error := some "Wallet required" }, store)
    else
      match findW wallet store with
      | none =>
        ({ status := 200, nonce := some fresh }, store ++ [⟨wallet, fresh⟩])
      | some _ =>
        ({ status := 200, nonce := some fresh }, setNonceW wallet fresh store)

/-- `POST /auth/verify` of the ethers variant (`src/unnamed/part_002`
lines 63-89).  The handler performs no missing-field validation, so the
embedding takes the two body fields as present strings.  An unknown wallet
answers 400 (not 404), a mismatching signature answers 400 (not 401), and —
unlike every other variant — the stored nonce is NOT rotated on success. -/
def verify (env : Env) (store : List UserW) (wallet sig : String) :
    Resp × List UserW :=
  match findW wallet store with
  | none => ({ status := 400, error := some "User not found" }, store)
  | some u =>
    match env.recover (message u.nonce) sig with
    | none => ({ status := 500, error := some "Server error (verify)" }, store)
    | some recovered =>
      if lowerStr recovered == lowerStr wallet then
        ({ status := 200, token := some (env.sign wallet) }, store)
      else
        ({ status := 400, error := some "Invalid signature" }, store)

end ethersV

namespace mwV

/-- The challenge message of the part_002 multi-wallet variant (line 162):
`` `Nonce: ${user.nonce}` `` — note the prefix differs from the
`"Login nonce: "` used by every other variant. -/
def message (nonce : String) : String := "Nonce: " ++ nonce

/-- `POST /auth/request-nonce` of the part_002 multi-wallet variant
(lines 123-149).  On the create path the handler draws a nonce (`freshA`),
saves, and then unconditionally draws again (`freshB`) and saves; on the
existing-account path only the second draw happens.  Response is `{ nonce }`. -/
def requestNonce (freshA freshB : String) (store : List UserM)
    (walletIn : Option String) : Resp × List UserM :=
  match walletIn with
  | none => ({ status := 400, error := some "Wallet address required" }, store)
  | some wallet =>
    if wallet == "" then
      ({ status := 400, error := some "Wallet address required" }, store)
    else
      let lower := lowerStr wallet
      match findM lower store with
      | none =>
        let store1 := store ++ [⟨[lower], freshA⟩]
        ({ status := 200, nonce := some freshB }, setNonceM lower freshB store1)
      | some _ =>
        ({ status := 200, nonce := some freshB }, setNonceM lower freshB store)

/-- `POST /auth/verify` of the part_002 multi-wallet variant (lines 155-192).
No missing-field validation (fields taken as present).  Lookup is by
lower-cased membership in `wallets`; the message prefix is `"Nonce: "`;
success rotates the nonce and signs `{ id, wallets }`. -/
def verify (env : Env) (fresh : String) (store : List UserM)
    (wallet sig : String) : Resp × List UserM :=
  let lower := lowerStr wallet
  match findM lower store with
  | none => ({ status := 400, error := some "User not found" }, store)
  | some u =>
    match env.recover (message u.nonce) sig with
    | none =>
      ({ status := 500, error := some "Server error verifying signature" }, store)
    | some recovered =>
      if lowerStr recovered == lowerStr wallet then
        ({ status := 200, token := some (env.signM u.wallets) },
         setNonceM lower fresh store)
      else
        ({ status := 401, error := some "Signature verification failed" }, store)

end mwV

namespace legacyV

/-- The challenge message of the part_002 legacy variant (line 291). -/
def message (nonce : String) : String := "Login nonce: " ++ nonce

/-- `POST /auth/request-nonce` of the part_002 legacy variant (lines 250-276):
`const wallet = (req.body.wallet || "").toLowerCase()`. -/
def requestNonce (fresh : String) (store : List UserW) (walletIn : Option String) :
    Resp × List UserW :=
  let wallet := lowerStr (walletIn.getD "")
  if wallet == "" then
    ({ status := 400, error := some "Wallet required" }, store)
  else
    match findW wallet store with
    | none =>
      ({ status := 200, nonce := some fresh }, store ++ [⟨wallet, fresh⟩])
    | some _ =>
      ({ status := 200, nonce := some fresh }, setNonceW wallet fresh store)

/-- `POST /auth/verify` of the part_002 legacy variant (lines 281-330).
The lookup uses the RAW request wallet (no lower-casing), an unknown wallet
answers 400, and a mismatching signature answers 400 ("Signature invalid");
on success the token is signed first and then the nonce is rotated. -/
def verify (env : Env) (fresh : String) (store : List UserW)
    (walletIn sigIn : Option String) : Resp × List UserW :=
  match walletIn, sigIn with
  | some wallet, some sig =>
    if wallet == "" || sig == "" then
      ({ status := 400, error := some "Wallet and signature required" }, store)
    else
    match findW wallet store with
    | none => ({ status := 400, error := some "User not found" }, store)
    | some u =>
      match env.recover (message u.nonce) sig with
      | none => ({ status := 500, error := some "Server error" }, store)
      | some recovered =>
        if lowerStr recovered == lowerStr wallet then
          ({ status := 200, token := some (env.sign u.wallet) },
           setNonceW wallet fresh store)
        else
          ({ status := 400, error := some "Signature invalid" }, store)
  | _, _ =>
    ({ status := 400, error := some "Wallet and signature required" }, store)

end legacyV

namespace p3V

/-- The challenge message of `src/unnamed/part_003` line 78; the stored nonce
is a Number, so the interpolation renders its decimal representation. -/
def message (nonce : Nat) : String := "Login nonce: " ++ toString nonce

/-- `POST /auth/request-nonce` of `src/unnamed/part_003` (lines 34-60):
no normalization of `userId`; the nonce is a number; the response body is
`{ userId, nonce }`. -/
def requestNonce (fresh : Nat) (store : List UserN) (userIdIn : Option String) :
    Resp × List UserN :=
  match userIdIn with
  | none => ({ status := 400, error := some "userId is required" }, store)
  | some userId =>
    if userId == "" then
      ({ status := 400, error := some "userId is required" }, store)
    else
      match findN userId store with
      | none =>
        ({ status := 200, userId := some userId, nonceNat := some fresh },
         store ++ [⟨userId, fresh⟩])
      | some _ =>
        ({ status := 200, userId := some userId, nonceNat := some fresh },
         setNonceN userId fresh store)

/-- `POST /auth/verify` of `src/unnamed/part_003` (lines 65-108).
Unknown userId answers 400; a mismatch answers 401; on success a token is
issued but the stored nonce is NOT rotated. -/
def verify (env : Env) (store : List UserN) (userIdIn sigIn : Option String) :
    Resp × List UserN :=
  match userIdIn, sigIn with
  | some userId, some sig =>
    if userId == "" || sig == "" then
      ({ status := 400, error := some "userId and signature required" }, store)
    else
    match findN userId store with
    | none => ({ status := 400, error := some "User not found" }, store)
    | some u =>
      match env.recover (message u.nonce) sig with
      | none =>
        ({ status := 500, error := some "Server error verifying signature" }, store)
      | some recovered =>
        if lowerStr recovered == lowerStr userId then
          ({ status := 200, token := some (env.sign userId) }, store)
        else
          ({ status := 401, error := some "Signature verification failed" }, store)
  | _, _ =>
    ({ status := 400, error := some "userId and signature required" }, store)

end p3V

namespace mw1

/-- The `/auth/request-nonce` catch handler of the part_001 multi-wallet
variant (lines 216-223): it serializes the caught exception's `message` and
`stack` properties into the 500 response body. -/
def requestNonceCatch (errMessage errStack : String) : Resp :=
  { status := 500, message := some "Server error requesting nonce",
    error := some errMessage, stack := some errStack }

end mw1

/-- `Math.floor(Math.random() * 1000000)`: the nonce generator used at every
generation site (schema defaults and explicit rotations), with the
`Math.random()` draw modelled as an exact rational in `[0, 1)`. -/
def genNonce (q : ℚ) : Nat := (⌊q * 1000000⌋).toNat

/-- The Boolean acceptance condition of `serverA.verify` once an account with
nonce `nonce` has been found for the (already lower-cased) wallet `wallet`:
the recovered address lower-cases to the wallet. -/
def sigOk (env : Env) (nonce wallet sig : String) : Bool :=
  match env.recover (serverA.message nonce) sig with
  | some recovered => lowerStr recovered == lowerStr wallet
  | none => false

/-! ### Helper lemmas about the store and the `serverA` handlers -/

theorem findW_setNonceW_self (w f : String) (st : List UserW) :
    findW w (setNonceW w f st) = (findW w st).map (fun u => { u with nonce := f }) := by
  induction st with
  | nil => rfl
  | cons u rest ih =>
    by_cases h : (u.wallet == w) = true
    · simp [findW, setNonceW, h]
    · simp only [setNonceW, findW] at ih ⊢
      rw [if_neg (by simp [h]), List.find?_cons_of_neg _ (by simp [h]),
        List.find?_cons_of_neg _ (by simp [h]), ih]

theorem findW_append_singleton (w f : String) (st : List UserW)
    (h : findW w st = none) :
    findW w (st ++ [⟨w, f⟩]) = some ⟨w, f⟩ := by
  unfold findW at h ⊢
  simp [List.find?_append, h]

theorem map_wallet_setNonceW (w f : String) (st : List UserW) :
    (setNonceW w f st).map UserW.wallet = st.map UserW.wallet := by
  induction st with
  | nil => rfl
  | cons u rest ih =>
    by_cases h : (u.wallet == w) = true
    · simp [setNonceW, h]
    · simp [setNonceW, h, ih]

theorem map_wallets_setNonceM (w f : String) (st : List UserM) :
    (setNonceM w f st).map UserM.wallets = st.map UserM.wallets := by
  induction st with
  | nil => rfl
  | cons u rest ih =>
    by_cases h : w ∈ u.wallets
    · simp [setNonceM, h]
    · simp [setNonceM, h, ih]

theorem serverA.requestNonce_create (fresh w0 : String) (store : List UserW)
    (hw : (lowerStr w0 == "") = false)
    (hfind : findW (lowerStr w0) store = none) :
    serverA.requestNonce fresh store (some w0) =
      ({ status := 200, wallet := some (lowerStr w0), nonce := some fresh },
       store ++ [⟨lowerStr w0, fresh⟩]) := by
  simp [serverA.requestNonce, hw, hfind]

theorem serverA.requestNonce_update (fresh w0 : String) (store : List UserW)
    (u : UserW) (hw : (lowerStr w0 == "") = false)
    (hfind : findW (lowerStr w0) store = some u) :
    serverA.requestNonce fresh store (some w0) =
      ({ status := 200, wallet := some (lowerStr w0), nonce := some fresh },
       setNonceW (lowerStr w0) fresh store) := by
  simp [serverA.requestNonce, hw, hfind]

theorem serverA.verify_notFound (env : Env) (fresh w0 sig : String)
    (store : List UserW)
    (hw : (lowerStr w0 == "") = false) (hs : (sig == "") = false)
    (hfind : findW (lowerStr w0) store = none) :
    serverA.verify env fresh store (some w0) (some sig) =
      ({ status := 404, message := some "User not found" }, store) := by
  simp [serverA.verify, hw, hs, hfind]

theorem serverA.verify_recover_none (env : Env) (fresh w0 sig : String)
    (store : List UserW) (u : UserW)
    (hw : (lowerStr w0 == "") = false) (hs : (sig == "") = false)
    (hfind : findW (lowerStr w0) store = some u)
    (hrec : env.recover (serverA.message u.nonce) sig = none) :
    serverA.verify env fresh store (some w0) (some sig) =
      ({ status := 500, message := some "Server error verifying signature" }, store) := by
  simp [serverA.verify, hw, hs, hfind, hrec]

theorem serverA.verify_mismatch (env : Env) (fresh w0 sig : String)
    (store : List UserW) (u : UserW) (r : String)
    (hw : (lowerStr w0 == "") = false) (hs : (sig == "") = false)
    (hfind : findW (lowerStr w0) store = some u)
    (hrec : env.recover (serverA.message u.nonce) sig = some r)
    (hne : (lowerStr r == lowerStr (lowerStr w0)) = false) :
    serverA.verify env fresh store (some w0) (some sig) =
      ({ status := 401, message := some "Signature verification failed" }, store) := by
  simp [serverA.verify, hw, hs, hfind, hrec, hne]

theorem serverA.verify_success (env : Env) (fresh w0 sig : String)
    (store : List UserW) (u : UserW) (r : String)
    (hw : (lowerStr w0 == "") = false) (hs : (sig == "") = false)
    (hfind : findW (lowerStr w0) store = some u)
    (hrec : env.recover (serverA.message u.nonce) sig = some r)
    (heq : (lowerStr r == lowerStr (lowerStr w0)) = true) :
    serverA.verify env fresh store (some w0) (some sig) =
      ({ status := 200, message := some "Login success",
         token := some (env.sign (lowerStr w0)), wallet := some (lowerStr w0) },
       setNonceW (lowerStr w0) fresh store) := by
  simp [serverA.verify, hw, hs, hfind, hrec, heq]

/-- The Boolean missing-field guard of `serverA.verify`: either body field
absent, or (after lower-casing the wallet) empty. -/
def missingWS (walletIn sigIn : Option String) : Bool :=
  match walletIn, sigIn with
  | some w0, some sig => lowerStr w0 == "" || sig == ""
  | _, _ => true

/-- A concrete environment used by witnesses and counterexamples: the
recovery pipeline yields the address `"0xaa"` exactly for the signature
`"0xsig"` over the message `"Login nonce: 42"`, and throws otherwise. -/
def envC : Env :=
  ⟨fun m s => if m == "Login nonce: 42" && s == "0xsig" then some "0xaa" else none,
   fun w => "jwt-" ++ w, fun _ => "jwt-m"⟩

/-- A second concrete environment: recovery yields `"0xaa"` exactly for the
signature `"s1"` over the message `"Login nonce: 1"`. -/
def envW1 : Env :=
  ⟨fun m s => if m == "Login nonce: 1" && s == "s1" then some "0xaa" else none,
   fun w => "jwt-" ++ w, fun _ => "jwt-m"⟩

/-! ### C1 — nonce rotation on successful verify, no replay -/

/-- C1 (counterexample): in the ethers variant of part_002, a successful
`POST /auth/verify` does NOT rotate the stored nonce, so replaying the very
same (wallet, signature) pair immediately succeeds a second time and yields a
second token — refuting the claim that in every variant replay fails. -/
theorem C1_counterexample :
    ((ethersV.verify envC [⟨"0xaa", "42"⟩] "0xaa" "0xsig").1.status = 200 ∧
     (ethersV.verify envC [⟨"0xaa", "42"⟩] "0xaa" "0xsig").1.token = some "jwt-0xaa") ∧
    ((ethersV.verify envC (ethersV.verify envC [⟨"0xaa", "42"⟩] "0xaa" "0xsig").2
        "0xaa" "0xsig").1.status = 200 ∧
     (ethersV.verify envC (ethersV.verify envC [⟨"0xaa", "42"⟩] "0xaa" "0xsig").2
        "0xaa" "0xsig").1.token = some "jwt-0xaa") := by decide

/-- C1 (amended): in the `src/server.js` variant a successful verify rotates
the stored nonce to the fresh draw before responding, and replaying the same
(wallet, signature) pair fails — provided the replayed signature does not
also verify against the rotated nonce's message (`sigOk … fresh … = false`,
which in particular requires the fresh draw to differ from the consumed
nonce): the second call returns a non-200 status and no token. -/
theorem C1_amended_replay_fails (env : Env) (fresh fresh2 w0 sig : String)
    (store : List UserW)
    (hsucc : (serverA.verify env fresh store (some w0) (some sig)).1.status = 200)
    (hfresh : sigOk env fresh (lowerStr w0) sig = false) :
    (serverA.verify env fresh2 (serverA.verify env fresh store (some w0) (some sig)).2
        (some w0) (some sig)).1.status ≠ 200 ∧
    (serverA.verify env fresh2 (serverA.verify env fresh store (some w0) (some sig)).2
        (some w0) (some sig)).1.token = none := by
  by_cases hw : (lowerStr w0 == "") = true
  · exfalso; simp [serverA.verify, hw] at hsucc
  · by_cases hs : (sig == "") = true
    · exfalso; simp [serverA.verify, hw, hs] at hsucc
    · rw [Bool.not_eq_true] at hw hs
      cases hfind : findW (lowerStr w0) store with
      | none =>
        rw [serverA.verify_notFound env fresh w0 sig store hw hs hfind] at hsucc
        exact absurd hsucc (by simp)
      | some u =>
        cases hrec : env.recover (serverA.message u.nonce) sig with
        | none =>
          rw [serverA.verify_recover_none env fresh w0 sig store u hw hs hfind hrec] at hsucc
          exact absurd hsucc (by simp)
        | some r =>
          by_cases hm : (lowerStr r == lowerStr (lowerStr w0)) = true
          · rw [serverA.verify_success env fresh w0 sig store u r hw hs hfind hrec hm]
            have hfind2 : findW (lowerStr w0) (setNonceW (lowerStr w0) fresh store) =
                some { u with nonce := fresh } := by
              rw [findW_setNonceW_self, hfind]; rfl
            unfold sigOk at hfresh
            cases hrec2 : env.recover (serverA.message fresh) sig with
            | none =>
              rw [serverA.verify_recover_none env fresh2 w0 sig _
                { u with nonce := fresh } hw hs hfind2 hrec2]
              exact ⟨by simp, rfl⟩
            | some r2 =>
              rw [hrec2] at hfresh
              rw [serverA.verify_mismatch env fresh2 w0 sig _
                { u with nonce := fresh } r2 hw hs hfind2 hrec2 hfresh]
              exact ⟨by simp, rfl⟩
          · rw [Bool.not_eq_true] at hm
            rw [serverA.verify_mismatch env fresh w0 sig store u r hw hs hfind hrec hm] at hsucc
            exact absurd hsucc (by simp)

/-- C1 (witness): a concrete run of the amended theorem.  The account holds
nonce "1"; the signature "s1" verifies for it; after the successful verify the
nonce is "2" and the replay is answered 401 with no token. -/
theorem C1_witness :
    (serverA.verify envW1 "2" [⟨"0xaa", "1"⟩] (some "0xaa") (some "s1")).1.status = 200 ∧
    sigOk envW1 "2" (lowerStr "0xaa") "s1" = false ∧
    (serverA.verify envW1 "9" (serverA.verify envW1 "2" [⟨"0xaa", "1"⟩]
        (some "0xaa") (some "s1")).2 (some "0xaa") (some "s1")).1.status ≠ 200 ∧
    (serverA.verify envW1 "9" (serverA.verify envW1 "2" [⟨"0xaa", "1"⟩]
        (some "0xaa") (some "s1")).2 (some "0xaa") (some "s1")).1.token = none :=
  ⟨by decide, by decide,
   (C1_amended_replay_fails envW1 "2" "9" "0xaa" "s1" [⟨"0xaa", "1"⟩]
      (by decide) (by decide)).1,
   (C1_amended_replay_fails envW1 "2" "9" "0xaa" "s1" [⟨"0xaa", "1"⟩]
      (by decide) (by decide)).2⟩

/-! ### C2 — the error contract of POST /auth/verify -/

/-- C2 (counterexample): in the ethers variant of part_002, a verify request
for a wallet with no account is answered with HTTP 400, not 404 — so the
claimed contract ("404 exactly when no account exists") does not hold in
every variant. -/
theorem C2_counterexample :
    findW "0xbb" ([] : List UserW) = none ∧
    (ethersV.verify envC [] "0xbb" "0xsig").1.status = 400 ∧
    ¬ (ethersV.verify envC [] "0xbb" "0xsig").1.status = 404 := by decide

/-- C2 (amended): the claimed contract holds for the `src/server.js` variant:
its `POST /auth/verify` answers 400 exactly when a body field is missing
(or empty, which the handler's falsy test conflates with missing), 404
exactly when fields are present but no account matches the lower-cased
wallet, and 401 exactly when an account is found, recovery does not throw,
and the recovered address differs from the claimed wallet.  The ethers,
legacy and part_003 variants instead answer 400 for an unknown account (and
the ethers and legacy variants also answer 400 for a signature mismatch). -/
theorem C2_amended (env : Env) (fresh : String) (store : List UserW)
    (walletIn sigIn : Option String) :
    ((serverA.verify env fresh store walletIn sigIn).1.status = 400 ↔
      missingWS walletIn sigIn = true) ∧
    ((serverA.verify env fresh store walletIn sigIn).1.status = 404 ↔
      missingWS walletIn sigIn = false ∧
      findW (lowerStr (walletIn.getD "")) store = none) ∧
    ((serverA.verify env fresh store walletIn sigIn).1.status = 401 ↔
      missingWS walletIn sigIn = false ∧
      ∃ u, findW (lowerStr (walletIn.getD "")) store = some u ∧
        ∃ r, env.recover (serverA.message u.nonce) (sigIn.getD "") = some r ∧
          (lowerStr r == lowerStr (lowerStr (walletIn.getD ""))) = false) := by
  rcases walletIn with _ | w0
  · simp [serverA.verify, missingWS]
  rcases sigIn with _ | sig
  · simp [serverA.verify, missingWS]
  by_cases hw : (lowerStr w0 == "") = true
  · simp [serverA.verify, missingWS, hw]
  by_cases hs : (sig == "") = true
  · simp [serverA.verify, missingWS, hw, hs]
  rw [Bool.not_eq_true] at hw hs
  have hmiss : missingWS (some w0) (some sig) = false := by
    simp [missingWS, hw, hs]
  cases hfind : findW (lowerStr w0) store with
  | none =>
    rw [serverA.verify_notFound env fresh w0 sig store hw hs hfind]
    simp [hmiss, hfind]
  | some u =>
    cases hrec : env.recover (serverA.message u.nonce) sig with
    | none =>
      rw [serverA.verify_recover_none env fresh w0 sig store u hw hs hfind hrec]
      simp [hmiss, hfind, hrec]
    | some r =>
      by_cases hm : (lowerStr r == lowerStr (lowerStr w0)) = true
      · rw [serverA.verify_success env fresh w0 sig store u r hw hs hfind hrec hm]
        have hm2 : lowerStr r = lowerStr (lowerStr w0) := by simpa using hm
        simp [hmiss, hfind, hrec, hm2]
      · rw [Bool.not_eq_true] at hm
        rw [serverA.verify_mismatch env fresh w0 sig store u r hw hs hfind hrec hm]
        have hm2 : ¬ lowerStr r = lowerStr (lowerStr w0) := by simpa using hm
        simp [hmiss, hfind, hrec, hm2]

/-! ### More helper lemmas (acceptance characterization and frame lemmas) -/

theorem serverA.verify_status_iff (env : Env) (fresh w0 sig : String)
    (store : List UserW) (u : UserW)
    (hw : (lowerStr w0 == "") = false) (hs : (sig == "") = false)
    (hfind : findW (lowerStr w0) store = some u) :
    (serverA.verify env fresh store (some w0) (some sig)).1.status = 200 ↔
      sigOk env u.nonce (lowerStr w0) sig = true := by
  unfold sigOk
  cases hrec : env.recover (serverA.message u.nonce) sig with
  | none =>
    rw [serverA.verify_recover_none env fresh w0 sig store u hw hs hfind hrec]
    simp
  | some r =>
    by_cases hm : (lowerStr r == lowerStr (lowerStr w0)) = true
    · rw [serverA.verify_success env fresh w0 sig store u r hw hs hfind hrec hm]
      simp [hm]
    · rw [Bool.not_eq_true] at hm
      rw [serverA.verify_mismatch env fresh w0 sig store u r hw hs hfind hrec hm]
      simp [hm]

theorem verifyA_frame (env : Env) (fresh : String) (store : List UserW)
    (walletIn sigIn : Option String) :
    ((serverA.verify env fresh store walletIn sigIn).1.status = 200 ∧
     (serverA.verify env fresh store walletIn sigIn).2 =
       setNonceW (lowerStr (walletIn.getD "")) fresh store ∧
     (serverA.verify env fresh store walletIn sigIn).1.token =
       some (env.sign (lowerStr (walletIn.getD ""))) ∧
     (serverA.verify env fresh store walletIn sigIn).1.wallet =
       some (lowerStr (walletIn.getD ""))) ∨
    ((serverA.verify env fresh store walletIn sigIn).1.status ≠ 200 ∧
     (serverA.verify env fresh store walletIn sigIn).2 = store ∧
     (serverA.verify env fresh store walletIn sigIn).1.token = none) := by
  rcases walletIn with _ | w0
  · right; exact ⟨by simp [serverA.verify], rfl, rfl⟩
  rcases sigIn with _ | sig
  · right; exact ⟨by simp [serverA.verify], rfl, rfl⟩
  by_cases hw : (lowerStr w0 == "") = true
  · right; exact ⟨by simp [serverA.verify, hw], by simp [serverA.verify, hw],
      by simp [serverA.verify, hw]⟩
  by_cases hs : (sig == "") = true
  · right; exact ⟨by simp [serverA.verify, hw, hs], by simp [serverA.verify, hw, hs],
      by simp [serverA.verify, hw, hs]⟩
  rw [Bool.not_eq_true] at hw hs
  cases hfind : findW (lowerStr w0) store with
  | none =>
    right
    rw [serverA.verify_notFound env fresh w0 sig store hw hs hfind]
    exact ⟨by simp, rfl, rfl⟩
  | some u =>
    cases hrec : env.recover (serverA.message u.nonce) sig with
    | none =>
      right
      rw [serverA.verify_recover_none env fresh w0 sig store u hw hs hfind hrec]
      exact ⟨by simp, rfl, rfl⟩
    | some r =>
      by_cases hm : (lowerStr r == lowerStr (lowerStr w0)) = true
      · left
        rw [serverA.verify_success env fresh w0 sig store u r hw hs hfind hrec hm]
        exact ⟨rfl, rfl, rfl, rfl⟩
      · right
        rw [Bool.not_eq_true] at hm
        rw [serverA.verify_mismatch env fresh w0 sig store u r hw hs hfind hrec hm]
        exact ⟨by simp, rfl, rfl⟩

theorem verifyE_store (env : Env) (store : List UserW) (wallet sig : String) :
    (ethersV.verify env store wallet sig).2 = store := by
  cases hfind : findW wallet store with
  | none => simp [ethersV.verify, hfind]
  | some u =>
    cases hrec : env.recover (ethersV.message u.nonce) sig with
    | none => simp [ethersV.verify, hfind, hrec]
    | some r =>
      by_cases hm : lowerStr r = lowerStr wallet <;>
        simp [ethersV.verify, hfind, hrec, hm]

theorem verifyE_fail_token (env : Env) (store : List UserW) (wallet sig : String)
    (h : (ethersV.verify env store wallet sig).1.status ≠ 200) :
    (ethersV.verify env store wallet sig).1.token = none := by
  cases hfind : findW wallet store with
  | none => simp [ethersV.verify, hfind]
  | some u =>
    cases hrec : env.recover (ethersV.message u.nonce) sig with
    | none => simp [ethersV.verify, hfind, hrec]
    | some r =>
      by_cases hm : lowerStr r = lowerStr wallet
      · exact absurd (by simp [ethersV.verify, hfind, hrec, hm]) h
      · simp [ethersV.verify, hfind, hrec, hm]

theorem verifyN_store (env : Env) (store : List UserN) (userIdIn sigIn : Option String) :
    (p3V.verify env store userIdIn sigIn).2 = store := by
  rcases userIdIn with _ | userId
  · rfl
  rcases sigIn with _ | sig
  · rfl
  by_cases hg : (userId == "" || sig == "") = true
  · simp [p3V.verify, hg]
  · rw [Bool.not_eq_true] at hg
    cases hfind : findN userId store with
    | none => simp [p3V.verify, hg, hfind]
    | some u =>
      cases hrec : env.recover (p3V.message u.nonce) sig with
      | none => simp [p3V.verify, hg, hfind, hrec]
      | some r =>
        by_cases hm : lowerStr r = lowerStr userId <;>
          simp [p3V.verify, hg, hfind, hrec, hm]

theorem verifyN_fail_token (env : Env) (store : List UserN)
    (userIdIn sigIn : Option String)
    (h : (p3V.verify env store userIdIn sigIn).1.status ≠ 200) :
    (p3V.verify env store userIdIn sigIn).1.token = none := by
  rcases userIdIn with _ | userId
  · rfl
  rcases sigIn with _ | sig
  · rfl
  by_cases hg : (userId == "" || sig == "") = true
  · simp [p3V.verify, hg]
  · rw [Bool.not_eq_true] at hg
    cases hfind : findN userId store with
    | none => simp [p3V.verify, hg, hfind]
    | some u =>
      cases hrec : env.recover (p3V.message u.nonce) sig with
      | none => simp [p3V.verify, hg, hfind, hrec]
      | some r =>
        by_cases hm : lowerStr r = lowerStr userId
        · exact absurd (by simp [p3V.verify, hg, hfind, hrec, hm]) h
        · simp [p3V.verify, hg, hfind, hrec, hm]

theorem verifyM_frame (env : Env) (fresh : String) (store : List UserM)
    (wallet sig : String) :
    ((mwV.verify env fresh store wallet sig).1.status = 200 ∧
     (mwV.verify env fresh store wallet sig).2 =
       setNonceM (lowerStr wallet) fresh store) ∨
    ((mwV.verify env fresh store wallet sig).1.status ≠ 200 ∧
     (mwV.verify env fresh store wallet sig).2 = store ∧
     (mwV.verify env fresh store wallet sig).1.token = none) := by
  cases hfind : findM (lowerStr wallet) store with
  | none => right; refine ⟨?_, ?_, ?_⟩ <;> simp [mwV.verify, hfind]
  | some u =>
    cases hrec : env.recover (mwV.message u.nonce) sig with
    | none => right; refine ⟨?_, ?_, ?_⟩ <;> simp [mwV.verify, hfind, hrec]
    | some r =>
      by_cases hm : lowerStr r = lowerStr wallet
      · left; refine ⟨?_, ?_⟩ <;> simp [mwV.verify, hfind, hrec, hm]
      · right; refine ⟨?_, ?_, ?_⟩ <;> simp [mwV.verify, hfind, hrec, hm]

theorem verifyL_frame (env : Env) (fresh : String) (store : List UserW)
    (walletIn sigIn : Option String) :
    ((legacyV.verify env fresh store walletIn sigIn).1.status = 200 ∧
     (legacyV.verify env fresh store walletIn sigIn).2 =
       setNonceW (walletIn.getD "") fresh store) ∨
    ((legacyV.verify env fresh store walletIn sigIn).1.status ≠ 200 ∧
     (legacyV.verify env fresh store walletIn sigIn).2 = store ∧
     (legacyV.verify env fresh store walletIn sigIn).1.token = none) := by
  rcases walletIn with _ | wallet
  · right; exact ⟨by simp [legacyV.verify], rfl, rfl⟩
  rcases sigIn with _ | sig
  · right; exact ⟨by simp [legacyV.verify], rfl, rfl⟩
  by_cases hg : (wallet == "" || sig == "") = true
  · right; refine ⟨?_, ?_, ?_⟩ <;> simp [legacyV.verify, hg]
  · rw [Bool.not_eq_true] at hg
    cases hfind : findW wallet store with
    | none => right; refine ⟨?_, ?_, ?_⟩ <;> simp [legacyV.verify, hg, hfind]
    | some u =>
      cases hrec : env.recover (legacyV.message u.nonce) sig with
      | none => right; refine ⟨?_, ?_, ?_⟩ <;> simp [legacyV.verify, hg, hfind, hrec]
      | some r =>
        by_cases hm : lowerStr r = lowerStr wallet
        · left; refine ⟨?_, ?_⟩ <;> simp [legacyV.verify, hg, hfind, hrec, hm]
        · right; refine ⟨?_, ?_, ?_⟩ <;> simp [legacyV.verify, hg, hfind, hrec, hm]

/-! ### C3 — case-insensitive wallet handling -/

/-- C3 (counterexample): the ethers variant's `POST /auth/request-nonce`
performs no case normalization at all, so requesting a nonce for `"0xAB"`
and then for `"0xab"` creates TWO distinct account records — refuting the
claim that in every variant any case mixture resolves to one account. -/
theorem C3_counterexample :
    (ethersV.requestNonce "1" [] (some "0xAB")).2 = [⟨"0xAB", "1"⟩] ∧
    (ethersV.requestNonce "2" (ethersV.requestNonce "1" [] (some "0xAB")).2
        (some "0xab")).2 = [⟨"0xAB", "1"⟩, ⟨"0xab", "2"⟩] := by decide

/-- C3 (amended): the `src/server.js` variant is fully case-insensitive: both
`requestNonce` and `verify` lower-case the supplied wallet before any use, so
two requests whose wallets agree up to case are answered identically and act
identically on the store.  (The ethers variant normalizes nowhere, and the
legacy variant's verify looks the raw wallet up even though its requestNonce
stores it lower-cased.) -/
theorem C3_amended (env : Env) (fresh : String) (store : List UserW)
    (w1 w2 : String) (sigIn : Option String) (h : lowerStr w1 = lowerStr w2) :
    serverA.requestNonce fresh store (some w1) =
      serverA.requestNonce fresh store (some w2) ∧
    serverA.verify env fresh store (some w1) sigIn =
      serverA.verify env fresh store (some w2) sigIn := by
  constructor
  · simp only [serverA.requestNonce, h]
  · rcases sigIn with _ | sig
    · rfl
    · simp only [serverA.verify, h]

/-- C3 (witness): concrete instance of the amended theorem at `"0xAB"` and
`"0xab"`. -/
theorem C3_witness :
    lowerStr "0xAB" = lowerStr "0xab" ∧
    serverA.requestNonce "1" [] (some "0xAB") =
      serverA.requestNonce "1" [] (some "0xab") ∧
    serverA.verify envC "9" [⟨"0xaa", "42"⟩] (some "0xAB") (some "0xsig") =
      serverA.verify envC "9" [⟨"0xaa", "42"⟩] (some "0xab") (some "0xsig") :=
  ⟨by decide,
   (C3_amended envC "1" [] "0xAB" "0xab" (some "0xsig") (by decide)).1,
   (C3_amended envC "9" [⟨"0xaa", "42"⟩] "0xAB" "0xab" (some "0xsig") (by decide)).2⟩

/-! ### C4 — the canonical challenge message -/

/-- An environment in which recovery never throws: the signature `"0xsig"`
recovers `"0xaa"` exactly over the canonical message `"Login nonce: 42"`,
and recovers the unrelated address `"0x00"` over any other message. -/
def envT : Env :=
  ⟨fun m s => if m == "Login nonce: 42" && s == "0xsig" then some "0xaa" else some "0x00",
   fun w => "jwt-" ++ w, fun _ => "jwt-m"⟩

/-- C4 (counterexample): the part_002 multi-wallet variant reconstructs
`"Nonce: " + nonce`, not the canonical `"Login nonce: " + nonce`: with the
same store, account nonce and signature, the `src/server.js` verify accepts
(200) while the multi-wallet variant rejects the canonical-message signature
with 401 — refuting "the same string in every variant". -/
theorem C4_counterexample :
    mwV.message "42" ≠ "Login nonce: " ++ "42" ∧
    (serverA.verify envT "9" [⟨"0xaa", "42"⟩] (some "0xaa") (some "0xsig")).1.status = 200 ∧
    (mwV.verify envT "9" [⟨["0xaa"], "42"⟩] "0xaa" "0xsig").1.status = 401 := by decide

/-- C4 (amended): the `src/server.js`, ethers, legacy and part_003 variants
all reconstruct exactly `"Login nonce: " + nonce` (part_003 rendering its
numeric nonce in decimal), while the part_002 multi-wallet variant
reconstructs `"Nonce: " + nonce`; and for `src/server.js`, once an account is
found, verification succeeds exactly when the recovered address of the
canonical message lower-cases to the claimed wallet (`sigOk`). -/
theorem C4_amended (env : Env) (fresh w0 sig n : String) (k : Nat)
    (store : List UserW) (u : UserW)
    (hw : (lowerStr w0 == "") = false) (hs : (sig == "") = false)
    (hfind : findW (lowerStr w0) store = some u) :
    serverA.message n = "Login nonce: " ++ n ∧
    ethersV.message n = "Login nonce: " ++ n ∧
    legacyV.message n = "Login nonce: " ++ n ∧
    p3V.message k = "Login nonce: " ++ toString k ∧
    mwV.message n = "Nonce: " ++ n ∧
    ((serverA.verify env fresh store (some w0) (some sig)).1.status = 200 ↔
      sigOk env u.nonce (lowerStr w0) sig = true) :=
  ⟨rfl, rfl, rfl, rfl, rfl,
   serverA.verify_status_iff env fresh w0 sig store u hw hs hfind⟩

/-- C4 (witness): concrete instance of the amended theorem. -/
theorem C4_witness :
    ((lowerStr "0xaa" == "") = false ∧ (("0xsig" : String) == "") = false ∧
     findW (lowerStr "0xaa") [⟨"0xaa", "42"⟩] = some ⟨"0xaa", "42"⟩) ∧
    (serverA.message "5" = "Login nonce: " ++ "5" ∧
     ethersV.message "5" = "Login nonce: " ++ "5" ∧
     legacyV.message "5" = "Login nonce: " ++ "5" ∧
     p3V.message 5 = "Login nonce: " ++ toString 5 ∧
     mwV.message "5" = "Nonce: " ++ "5" ∧
     ((serverA.verify envC "9" [⟨"0xaa", "42"⟩] (some "0xaa") (some "0xsig")).1.status = 200 ↔
       sigOk envC "42" (lowerStr "0xaa") "0xsig" = true)) :=
  ⟨⟨by decide, by decide, by decide⟩,
   C4_amended envC "9" "0xaa" "0xsig" "5" 5 [⟨"0xaa", "42"⟩] ⟨"0xaa", "42"⟩
     (by decide) (by decide) (by decide)⟩

/-! ### C5 — verify is atomic on failure -/

/-- C5: in every embedded variant, a failing call to `POST /auth/verify`
(non-200 status: missing input, unknown account, signature mismatch, or a
throwing recovery) leaves the store — and hence the account's stored
nonce — unchanged and issues no token. -/
theorem C5_theorem (env : Env) (freshA freshM freshL : String)
    (storeA storeE storeL : List UserW) (storeM : List UserM) (storeN : List UserN)
    (wA sA wL sL wN sN : Option String) (wE sE wM sM : String)
    (hA : (serverA.verify env freshA storeA wA sA).1.status ≠ 200)
    (hE : (ethersV.verify env storeE wE sE).1.status ≠ 200)
    (hM : (mwV.verify env freshM storeM wM sM).1.status ≠ 200)
    (hL : (legacyV.verify env freshL storeL wL sL).1.status ≠ 200)
    (hN : (p3V.verify env storeN wN sN).1.status ≠ 200) :
    ((serverA.verify env freshA storeA wA sA).2 = storeA ∧
     (serverA.verify env freshA storeA wA sA).1.token = none) ∧
    ((ethersV.verify env storeE wE sE).2 = storeE ∧
     (ethersV.verify env storeE wE sE).1.token = none) ∧
    ((mwV.verify env freshM storeM wM sM).2 = storeM ∧
     (mwV.verify env freshM storeM wM sM).1.token = none) ∧
    ((legacyV.verify env freshL storeL wL sL).2 = storeL ∧
     (legacyV.verify env freshL storeL wL sL).1.token = none) ∧
    ((p3V.verify env storeN wN sN).2 = storeN ∧
     (p3V.verify env storeN wN sN).1.token = none) := by
  refine ⟨?_, ⟨verifyE_store env storeE wE sE,
      verifyE_fail_token env storeE wE sE hE⟩, ?_, ?_,
      ⟨verifyN_store env storeN wN sN, verifyN_fail_token env storeN wN sN hN⟩⟩
  · rcases verifyA_frame env freshA storeA wA sA with h | h
    · exact absurd h.1 hA
    · exact ⟨h.2.1, h.2.2⟩
  · rcases verifyM_frame env freshM storeM wM sM with h | h
    · exact absurd h.1 hM
    · exact ⟨h.2.1, h.2.2⟩
  · rcases verifyL_frame env freshL storeL wL sL with h | h
    · exact absurd h.1 hL
    · exact ⟨h.2.1, h.2.2⟩

/-- C5 (witness): concrete failing calls (unknown account on an empty store)
in all five variants: stores unchanged, no tokens. -/
theorem C5_witness :
    ((serverA.verify envC "9" [] (some "0xaa") (some "s")).1.status ≠ 200 ∧
     (ethersV.verify envC [] "0xaa" "s").1.status ≠ 200 ∧
     (mwV.verify envC "9" [] "0xaa" "s").1.status ≠ 200 ∧
     (legacyV.verify envC "9" [] (some "0xaa") (some "s")).1.status ≠ 200 ∧
     (p3V.verify envC [] (some "0xaa") (some "s")).1.status ≠ 200) ∧
    (((serverA.verify envC "9" [] (some "0xaa") (some "s")).2 = [] ∧
      (serverA.verify envC "9" [] (some "0xaa") (some "s")).1.token = none) ∧
     ((ethersV.verify envC [] "0xaa" "s").2 = [] ∧
      (ethersV.verify envC [] "0xaa" "s").1.token = none) ∧
     ((mwV.verify envC "9" [] "0xaa" "s").2 = [] ∧
      (mwV.verify envC "9" [] "0xaa" "s").1.token = none) ∧
     ((legacyV.verify envC "9" [] (some "0xaa") (some "s")).2 = [] ∧
      (legacyV.verify envC "9" [] (some "0xaa") (some "s")).1.token = none) ∧
     ((p3V.verify envC [] (some "0xaa") (some "s")).2 = [] ∧
      (p3V.verify envC [] (some "0xaa") (some "s")).1.token = none)) :=
  ⟨⟨by decide, by decide, by decide, by decide, by decide⟩,
   C5_theorem envC "9" "9" "9" [] [] [] [] [] (some "0xaa") (some "s")
     (some "0xaa") (some "s") (some "0xaa") (some "s") "0xaa" "s" "0xaa" "s"
     (by decide) (by decide) (by decide) (by decide) (by decide)⟩

/-! ### C6 — two successive requestNonce calls -/

/-- C6 (counterexample): the code draws each nonce independently with
`Math.floor(Math.random() * 1000000)` and never compares it to the previous
one, so nothing ensures two successive calls yield DIFFERENT values: when the
two draws coincide (here both `"7"`), the two calls return the same nonce —
refuting the unconditional claim. -/
theorem C6_counterexample :
    (serverA.requestNonce "7" [] (some "0xaa")).1.nonce = some "7" ∧
    (serverA.requestNonce "7" (serverA.requestNonce "7" [] (some "0xaa")).2
        (some "0xaa")).1.nonce = some "7" := by decide

/-- C6 (amended): provided the two random draws differ, two successive
`requestNonce(w)` calls in `src/server.js` return the two distinct draws, the
account's stored nonce after the second call is the second draw, and only the
second draw validates: a subsequent verify succeeds exactly when the
signature recovers the wallet over the second draw's canonical message. -/
theorem C6_amended (env : Env) (n1 n2 fresh w0 sig : String) (store : List UserW)
    (hw : (lowerStr w0 == "") = false) (hs : (sig == "") = false) (hne : n1 ≠ n2) :
    (serverA.requestNonce n1 store (some w0)).1.nonce = some n1 ∧
    (serverA.requestNonce n2 (serverA.requestNonce n1 store (some w0)).2
        (some w0)).1.nonce = some n2 ∧
    (serverA.requestNonce n1 store (some w0)).1.nonce ≠
      (serverA.requestNonce n2 (serverA.requestNonce n1 store (some w0)).2
        (some w0)).1.nonce ∧
    (∃ u, findW (lowerStr w0)
        (serverA.requestNonce n2 (serverA.requestNonce n1 store (some w0)).2
          (some w0)).2 = some u ∧ u.nonce = n2) ∧
    ((serverA.verify env fresh
        (serverA.requestNonce n2 (serverA.requestNonce n1 store (some w0)).2
          (some w0)).2 (some w0) (some sig)).1.status = 200 ↔
      sigOk env n2 (lowerStr w0) sig = true) := by
  cases hfind0 : findW (lowerStr w0) store with
  | none =>
    rw [serverA.requestNonce_create n1 w0 store hw hfind0]
    have hfind1 : findW (lowerStr w0) (store ++ [⟨lowerStr w0, n1⟩]) =
        some ⟨lowerStr w0, n1⟩ := findW_append_singleton _ _ _ hfind0
    rw [serverA.requestNonce_update n2 w0 _ _ hw hfind1]
    have hfind2 : findW (lowerStr w0)
        (setNonceW (lowerStr w0) n2 (store ++ [⟨lowerStr w0, n1⟩])) =
        some ⟨lowerStr w0, n2⟩ := by
      rw [findW_setNonceW_self, hfind1]; rfl
    exact ⟨rfl, rfl, by simp [hne], ⟨⟨lowerStr w0, n2⟩, hfind2, rfl⟩,
      serverA.verify_status_iff env fresh w0 sig _ ⟨lowerStr w0, n2⟩ hw hs hfind2⟩
  | some u0 =>
    rw [serverA.requestNonce_update n1 w0 store u0 hw hfind0]
    have hfind1 : findW (lowerStr w0) (setNonceW (lowerStr w0) n1 store) =
        some { u0 with nonce := n1 } := by
      rw [findW_setNonceW_self, hfind0]; rfl
    rw [serverA.requestNonce_update n2 w0 _ _ hw hfind1]
    have hfind2 : findW (lowerStr w0)
        (setNonceW (lowerStr w0) n2 (setNonceW (lowerStr w0) n1 store)) =
        some { u0 with nonce := n2 } := by
      rw [findW_setNonceW_self, hfind1]; rfl
    exact ⟨rfl, rfl, by simp [hne], ⟨{ u0 with nonce := n2 }, hfind2, rfl⟩,
      serverA.verify_status_iff env fresh w0 sig _ { u0 with nonce := n2 } hw hs hfind2⟩

/-- C6 (witness): concrete instance with draws "1" and "2" on an empty
store. -/
theorem C6_witness :
    ((lowerStr "0xaa" == "") = false ∧ (("s1" : String) == "") = false ∧
     ("1" : String) ≠ "2") ∧
    ((serverA.requestNonce "1" [] (some "0xaa")).1.nonce = some "1" ∧
     (serverA.requestNonce "2" (serverA.requestNonce "1" [] (some "0xaa")).2
        (some "0xaa")).1.nonce = some "2" ∧
     (serverA.requestNonce "1" [] (some "0xaa")).1.nonce ≠
       (serverA.requestNonce "2" (serverA.requestNonce "1" [] (some "0xaa")).2
         (some "0xaa")).1.nonce ∧
     (∃ u, findW (lowerStr "0xaa")
        (serverA.requestNonce "2" (serverA.requestNonce "1" [] (some "0xaa")).2
          (some "0xaa")).2 = some u ∧ u.nonce = "2") ∧
     ((serverA.verify envW1 "9"
        (serverA.requestNonce "2" (serverA.requestNonce "1" [] (some "0xaa")).2
          (some "0xaa")).2 (some "0xaa") (some "s1")).1.status = 200 ↔
       sigOk envW1 "2" (lowerStr "0xaa") "s1" = true)) :=
  ⟨⟨by decide, by decide, by decide⟩,
   C6_amended envW1 "1" "2" "9" "0xaa" "s1" [] (by decide) (by decide) (by decide)⟩

/-! ### C7 — failure responses never leak exception detail -/

/-- C7 (counterexample): the part_001 multi-wallet variant's
`/auth/request-nonce` catch handler copies the caught exception's `message`
and `stack` properties verbatim into the 500 response body — refuting the
claim that no error path serializes internal exception detail. -/
theorem C7_counterexample :
    (mw1.requestNonceCatch "connect ECONNREFUSED 127.0.0.1:27017"
        "MongooseServerSelectionError: at Connection.openUri").error =
      some "connect ECONNREFUSED 127.0.0.1:27017" ∧
    (mw1.requestNonceCatch "connect ECONNREFUSED 127.0.0.1:27017"
        "MongooseServerSelectionError: at Connection.openUri").stack ≠ none := by
  decide

/-- C7 (amended): the `src/server.js` variant does satisfy the claim: every
response of its two auth handlers (success or failure) carries no `error` and
no `stack` field, and its `message` field is always one of a fixed set of
compile-time string literals — never dynamic exception detail.  The part_001
multi-wallet variant's request-nonce catch handler violates the claim (see
the counterexample), and several variants answer with an `error` field
instead of a `message` field. -/
theorem C7_amended (env : Env) (fresh fresh2 : String) (store store2 : List UserW)
    (walletIn sigIn walletIn2 : Option String) :
    (serverA.verify env fresh store walletIn sigIn).1.error = none ∧
    (serverA.verify env fresh store walletIn sigIn).1.stack = none ∧
    ((serverA.verify env fresh store walletIn sigIn).1.message =
        some "Wallet and signature required" ∨
     (serverA.verify env fresh store walletIn sigIn).1.message =
        some "User not found" ∨
     (serverA.verify env fresh store walletIn sigIn).1.message =
        some "Server error verifying signature" ∨
     (serverA.verify env fresh store walletIn sigIn).1.message =
        some "Signature verification failed" ∨
     (serverA.verify env fresh store walletIn sigIn).1.message =
        some "Login success") ∧
    (serverA.requestNonce fresh2 store2 walletIn2).1.error = none ∧
    (serverA.requestNonce fresh2 store2 walletIn2).1.stack = none ∧
    ((serverA.requestNonce fresh2 store2 walletIn2).1.message =
        some "Wallet address required" ∨
     (serverA.requestNonce fresh2 store2 walletIn2).1.message = none) := by
  have hv : (serverA.verify env fresh store walletIn sigIn).1.error = none ∧
      (serverA.verify env fresh store walletIn sigIn).1.stack = none ∧
      ((serverA.verify env fresh store walletIn sigIn).1.message =
          some "Wallet and signature required" ∨
       (serverA.verify env fresh store walletIn sigIn).1.message =
          some "User not found" ∨
       (serverA.verify env fresh store walletIn sigIn).1.message =
          some "Server error verifying signature" ∨
       (serverA.verify env fresh store walletIn sigIn).1.message =
          some "Signature verification failed" ∨
       (serverA.verify env fresh store walletIn sigIn).1.message =
          some "Login success") := by
    rcases walletIn with _ | w0
    · simp [serverA.verify]
    rcases sigIn with _ | sig
    · simp [serverA.verify]
    by_cases hw : (lowerStr w0 == "") = true
    · simp [serverA.verify, hw]
    by_cases hs : (sig == "") = true
    · simp [serverA.verify, hw, hs]
    rw [Bool.not_eq_true] at hw hs
    cases hfind : findW (lowerStr w0) store with
    | none =>
      rw [serverA.verify_notFound env fresh w0 sig store hw hs hfind]; simp
    | some u =>
      cases hrec : env.recover (serverA.message u.nonce) sig with
      | none =>
        rw [serverA.verify_recover_none env fresh w0 sig store u hw hs hfind hrec]
        simp
      | some r =>
        by_cases hm : (lowerStr r == lowerStr (lowerStr w0)) = true
        · rw [serverA.verify_success env fresh w0 sig store u r hw hs hfind hrec hm]
          simp
        · rw [Bool.not_eq_true] at hm
          rw [serverA.verify_mismatch env fresh w0 sig store u r hw hs hfind hrec hm]
          simp
  have hr : (serverA.requestNonce fresh2 store2 walletIn2).1.error = none ∧
      (serverA.requestNonce fresh2 store2 walletIn2).1.stack = none ∧
      ((serverA.requestNonce fresh2 store2 walletIn2).1.message =
          some "Wallet address required" ∨
       (serverA.requestNonce fresh2 store2 walletIn2).1.message = none) := by
    rcases walletIn2 with _ | w0
    · simp [serverA.requestNonce]
    by_cases hw : (lowerStr w0 == "") = true
    · simp [serverA.requestNonce, hw]
    rw [Bool.not_eq_true] at hw
    cases hfind : findW (lowerStr w0) store2 with
    | none => rw [serverA.requestNonce_create fresh2 w0 store2 hw hfind]; simp
    | some u => rw [serverA.requestNonce_update fresh2 w0 store2 u hw hfind]; simp
  exact ⟨hv.1, hv.2.1, hv.2.2, hr.1, hr.2.1, hr.2.2⟩

/-! ### C8 — shape of the success responses -/

/-- C8 (counterexample): in the ethers variant the success response of
`POST /auth/request-nonce` is `{ nonce }` with no wallet field, and the
success response of `POST /auth/verify` is `{ token }` with no wallet field —
refuting the claim that every variant returns `{ wallet, nonce }` and
`{ token, wallet }`. -/
theorem C8_counterexample :
    (ethersV.requestNonce "7" [] (some "0xaa")).1.status = 200 ∧
    (ethersV.requestNonce "7" [] (some "0xaa")).1.wallet = none ∧
    (ethersV.verify envC [⟨"0xaa", "42"⟩] "0xaa" "0xsig").1.status = 200 ∧
    (ethersV.verify envC [⟨"0xaa", "42"⟩] "0xaa" "0xsig").1.wallet = none := by
  decide

/-- C8 (amended): the `src/server.js` variant does return both fields: a
successful request-nonce response carries the lower-cased wallet and the
fresh nonce, and a successful verify response carries the token and the
lower-cased wallet.  The ethers, part_002 multi-wallet and legacy variants
return `{ nonce }` and `{ token }` only, and part_003 returns
`{ userId, nonce }` and `{ token }`. -/
theorem C8_amended (env : Env) (fresh fresh2 : String) (store store2 : List UserW)
    (w0 w2 sig : String)
    (h1 : (serverA.requestNonce fresh store (some w0)).1.status = 200)
    (h2 : (serverA.verify env fresh2 store2 (some w2) (some sig)).1.status = 200) :
    (serverA.requestNonce fresh store (some w0)).1.wallet = some (lowerStr w0) ∧
    (serverA.requestNonce fresh store (some w0)).1.nonce = some fresh ∧
    (serverA.verify env fresh2 store2 (some w2) (some sig)).1.token =
      some (env.sign (lowerStr w2)) ∧
    (serverA.verify env fresh2 store2 (some w2) (some sig)).1.wallet =
      some (lowerStr w2) := by
  have hreq : (serverA.requestNonce fresh store (some w0)).1.wallet =
      some (lowerStr w0) ∧
      (serverA.requestNonce fresh store (some w0)).1.nonce = some fresh := by
    by_cases hw : (lowerStr w0 == "") = true
    · exact absurd h1 (by simp [serverA.requestNonce, hw])
    rw [Bool.not_eq_true] at hw
    cases hfind : findW (lowerStr w0) store with
    | none => rw [serverA.requestNonce_create fresh w0 store hw hfind]; exact ⟨rfl, rfl⟩
    | some u => rw [serverA.requestNonce_update fresh w0 store u hw hfind]; exact ⟨rfl, rfl⟩
  rcases verifyA_frame env fresh2 store2 (some w2) (some sig) with h | h
  · exact ⟨hreq.1, hreq.2, h.2.2.1, h.2.2.2⟩
  · exact absurd h2 h.1

/-- C8 (witness): concrete instance of the amended theorem. -/
theorem C8_witness :
    ((serverA.requestNonce "7" [] (some "0xAA")).1.status = 200 ∧
     (serverA.verify envC "9" [⟨"0xaa", "42"⟩] (some "0xaa") (some "0xsig")).1.status = 200) ∧
    ((serverA.requestNonce "7" [] (some "0xAA")).1.wallet = some (lowerStr "0xAA") ∧
     (serverA.requestNonce "7" [] (some "0xAA")).1.nonce = some "7" ∧
     (serverA.verify envC "9" [⟨"0xaa", "42"⟩] (some "0xaa") (some "0xsig")).1.token =
       some (envC.sign (lowerStr "0xaa")) ∧
     (serverA.verify envC "9" [⟨"0xaa", "42"⟩] (some "0xaa") (some "0xsig")).1.wallet =
       some (lowerStr "0xaa")) :=
  ⟨⟨by decide, by decide⟩,
   C8_amended envC "7" "9" [] [⟨"0xaa", "42"⟩] "0xAA" "0xaa" "0xsig"
     (by decide) (by decide)⟩

/-! ### C9 — every generated nonce lies in 0..999999 -/

/-- Every record of a single-wallet store carries the decimal representation
of an integer below one million as its nonce. -/
def noncesBoundedW (st : List UserW) : Prop :=
  ∀ u ∈ st, ∃ k, k < 1000000 ∧ u.nonce = toString k

/-- Every record of a part_003 store carries a numeric nonce below one
million. -/
def noncesBoundedN (st : List UserN) : Prop :=
  ∀ u ∈ st, u.nonce < 1000000

theorem genNonce_lt_of (q : ℚ) (h0 : 0 ≤ q) (h1 : q < 1) :
    genNonce q < 1000000 := by
  unfold genNonce
  have hmul : q * 1000000 < 1000000 := by nlinarith
  have hfl : ⌊q * (1000000 : ℚ)⌋ < (1000000 : ℤ) := by
    rw [Int.floor_lt]
    exact_mod_cast hmul
  omega

theorem mem_setNonceW (w f : String) (st : List UserW) (u : UserW)
    (hu : u ∈ setNonceW w f st) : u ∈ st ∨ u.nonce = f := by
  induction st with
  | nil => simp [setNonceW] at hu
  | cons a rest ih =>
    by_cases h : (a.wallet == w) = true
    · simp only [setNonceW, if_pos h] at hu
      rcases List.mem_cons.mp hu with h1 | h1
      · right; subst h1; rfl
      · left; exact List.mem_cons_of_mem _ h1
    · simp only [setNonceW, if_neg h] at hu
      rcases List.mem_cons.mp hu with h1 | h1
      · left; subst h1; exact List.mem_cons_self _ _
      · rcases ih h1 with h2 | h2
        · left; exact List.mem_cons_of_mem _ h2
        · right; exact h2

theorem mem_setNonceN (w : String) (f : Nat) (st : List UserN) (u : UserN)
    (hu : u ∈ setNonceN w f st) : u ∈ st ∨ u.nonce = f := by
  induction st with
  | nil => simp [setNonceN] at hu
  | cons a rest ih =>
    by_cases h : (a.userId == w) = true
    · simp only [setNonceN, if_pos h] at hu
      rcases List.mem_cons.mp hu with h1 | h1
      · right; subst h1; rfl
      · left; exact List.mem_cons_of_mem _ h1
    · simp only [setNonceN, if_neg h] at hu
      rcases List.mem_cons.mp hu with h1 | h1
      · left; subst h1; exact List.mem_cons_self _ _
      · rcases ih h1 with h2 | h2
        · left; exact List.mem_cons_of_mem _ h2
        · right; exact h2

theorem noncesBoundedW_append (st : List UserW) (w f : String)
    (hst : noncesBoundedW st) (hf : ∃ k, k < 1000000 ∧ f = toString k) :
    noncesBoundedW (st ++ [⟨w, f⟩]) := by
  intro u hu
  rcases List.mem_append.mp hu with h | h
  · exact hst u h
  · have : u = ⟨w, f⟩ := by simpa using h
    subst this
    exact hf

theorem noncesBoundedW_set (st : List UserW) (w f : String)
    (hst : noncesBoundedW st) (hf : ∃ k, k < 1000000 ∧ f = toString k) :
    noncesBoundedW (setNonceW w f st) := by
  intro u hu
  rcases mem_setNonceW w f st u hu with h | h
  · exact hst u h
  · rcases hf with ⟨k, hk, hfk⟩
    exact ⟨k, hk, h.trans hfk⟩

theorem noncesBoundedN_append (st : List UserN) (w : String) (f : Nat)
    (hst : noncesBoundedN st) (hf : f < 1000000) :
    noncesBoundedN (st ++ [⟨w, f⟩]) := by
  intro u hu
  rcases List.mem_append.mp hu with h | h
  · exact hst u h
  · have : u = ⟨w, f⟩ := by simpa using h
    subst this
    exact hf

theorem noncesBoundedN_set (st : List UserN) (w : String) (f : Nat)
    (hst : noncesBoundedN st) (hf : f < 1000000) :
    noncesBoundedN (setNonceN w f st) := by
  intro u hu
  rcases mem_setNonceN w f st u hu with h | h
  · exact hst u h
  · rw [h]; exact hf

theorem requestNonceA_store_cases (fresh : String) (store : List UserW)
    (walletIn : Option String) :
    (serverA.requestNonce fresh store walletIn).2 = store ∨
    (serverA.requestNonce fresh store walletIn).2 =
      store ++ [⟨lowerStr (walletIn.getD ""), fresh⟩] ∨
    (serverA.requestNonce fresh store walletIn).2 =
      setNonceW (lowerStr (walletIn.getD "")) fresh store := by
  rcases walletIn with _ | w0
  · left; rfl
  by_cases hw : (lowerStr w0 == "") = true
  · left; simp [serverA.requestNonce, hw]
  rw [Bool.not_eq_true] at hw
  cases hfind : findW (lowerStr w0) store with
  | none =>
    right; left
    rw [serverA.requestNonce_create fresh w0 store hw hfind]
    rfl
  | some u =>
    right; right
    rw [serverA.requestNonce_update fresh w0 store u hw hfind]
    rfl

theorem requestNonceE_store_cases (fresh : String) (store : List UserW)
    (walletIn : Option String) :
    (ethersV.requestNonce fresh store walletIn).2 = store ∨
    (ethersV.requestNonce fresh store walletIn).2 =
      store ++ [⟨walletIn.getD "", fresh⟩] ∨
    (ethersV.requestNonce fresh store walletIn).2 =
      setNonceW (walletIn.getD "") fresh store := by
  rcases walletIn with _ | w0
  · left; rfl
  by_cases hw : (w0 == "") = true
  · left; simp [ethersV.requestNonce, hw]
  rw [Bool.not_eq_true] at hw
  cases hfind : findW w0 store with
  | none => right; left; simp [ethersV.requestNonce, hw, hfind]
  | some u => right; right; simp [ethersV.requestNonce, hw, hfind]

theorem requestNonceN_store_cases (fresh : Nat) (store : List UserN)
    (userIdIn : Option String) :
    (p3V.requestNonce fresh store userIdIn).2 = store ∨
    (p3V.requestNonce fresh store userIdIn).2 =
      store ++ [⟨userIdIn.getD "", fresh⟩] ∨
    (p3V.requestNonce fresh store userIdIn).2 =
      setNonceN (userIdIn.getD "") fresh store := by
  rcases userIdIn with _ | userId
  · left; rfl
  by_cases hw : (userId == "") = true
  · left; simp [p3V.requestNonce, hw]
  rw [Bool.not_eq_true] at hw
  cases hfind : findN userId store with
  | none => right; left; simp [p3V.requestNonce, hw, hfind]
  | some u => right; right; simp [p3V.requestNonce, hw, hfind]

/-- C9: the nonce generator `Math.floor(Math.random() * 1000000)` always
yields an integer in 0..999999, and the generated-nonce invariant is
preserved by the store mutations of the cited generation sites: the
`src/server.js` request-nonce (creation default and rotation) and verify
(rotation), the ethers variant's request-nonce, and part_003's request-nonce
(numeric nonce). -/
theorem C9_theorem (q : ℚ) (env : Env) (storeA storeE : List UserW)
    (storeN : List UserN) (wIn wIn2 sIn wInE uIn : Option String)
    (h0 : 0 ≤ q) (h1 : q < 1)
    (hA : noncesBoundedW storeA) (hE : noncesBoundedW storeE)
    (hN : noncesBoundedN storeN) :
    genNonce q < 1000000 ∧
    noncesBoundedW (serverA.requestNonce (toString (genNonce q)) storeA wIn).2 ∧
    noncesBoundedW (serverA.verify env (toString (genNonce q)) storeA wIn2 sIn).2 ∧
    noncesBoundedW (ethersV.requestNonce (toString (genNonce q)) storeE wInE).2 ∧
    noncesBoundedN (p3V.requestNonce (genNonce q) storeN uIn).2 := by
  have hg := genNonce_lt_of q h0 h1
  have hf : ∃ k, k < 1000000 ∧ toString (genNonce q) = toString k :=
    ⟨genNonce q, hg, rfl⟩
  refine ⟨hg, ?_, ?_, ?_, ?_⟩
  · rcases requestNonceA_store_cases (toString (genNonce q)) storeA wIn
      with h | h | h <;> rw [h]
    · exact hA
    · exact noncesBoundedW_append storeA _ _ hA hf
    · exact noncesBoundedW_set storeA _ _ hA hf
  · rcases verifyA_frame env (toString (genNonce q)) storeA wIn2 sIn with h | h
    · rw [h.2.1]; exact noncesBoundedW_set storeA _ _ hA hf
    · rw [h.2.1]; exact hA
  · rcases requestNonceE_store_cases (toString (genNonce q)) storeE wInE
      with h | h | h <;> rw [h]
    · exact hE
    · exact noncesBoundedW_append storeE _ _ hE hf
    · exact noncesBoundedW_set storeE _ _ hE hf
  · rcases requestNonceN_store_cases (genNonce q) storeN uIn with h | h | h <;> rw [h]
    · exact hN
    · exact noncesBoundedN_append storeN _ _ hN hg
    · exact noncesBoundedN_set storeN _ _ hN hg

/-- C9 (witness): a concrete run with the draw `q = 1/2` on empty stores. -/
theorem C9_witness :
    ((0 : ℚ) ≤ 1 / 2 ∧ (1 / 2 : ℚ) < 1 ∧ noncesBoundedW [] ∧ noncesBoundedN []) ∧
    (genNonce (1 / 2) < 1000000 ∧
     noncesBoundedW (serverA.requestNonce (toString (genNonce (1 / 2))) []
       (some "0xaa")).2 ∧
     noncesBoundedW (serverA.verify envC (toString (genNonce (1 / 2))) []
       (some "0xaa") (some "s")).2 ∧
     noncesBoundedW (ethersV.requestNonce (toString (genNonce (1 / 2))) []
       (some "0xaa")).2 ∧
     noncesBoundedN (p3V.requestNonce (genNonce (1 / 2)) [] (some "0xaa")).2) :=
  ⟨⟨by norm_num, by norm_num, by simp [noncesBoundedW], by simp [noncesBoundedN]⟩,
   C9_theorem (1 / 2) envC [] [] [] (some "0xaa") (some "0xaa") (some "s")
     (some "0xaa") (some "0xaa") (by norm_num) (by norm_num)
     (by simp [noncesBoundedW]) (by simp [noncesBoundedW]) (by simp [noncesBoundedN])⟩

/-! ### C10 — requestNonce and verify only touch the nonce field -/

theorem requestNonceM_store_cases (freshA freshB : String) (store : List UserM)
    (walletIn : Option String) :
    (mwV.requestNonce freshA freshB store walletIn).2 = store ∨
    (mwV.requestNonce freshA freshB store walletIn).2 =
      setNonceM (lowerStr (walletIn.getD "")) freshB
        (store ++ [⟨[lowerStr (walletIn.getD "")], freshA⟩]) ∨
    (mwV.requestNonce freshA freshB store walletIn).2 =
      setNonceM (lowerStr (walletIn.getD "")) freshB store := by
  rcases walletIn with _ | w0
  · left; rfl
  by_cases hw : (w0 == "") = true
  · left; simp [mwV.requestNonce, hw]
  rw [Bool.not_eq_true] at hw
  cases hfind : findM (lowerStr w0) store with
  | none => right; left; simp [mwV.requestNonce, hw, hfind]
  | some u => right; right; simp [mwV.requestNonce, hw, hfind]

/-- C10: in the `src/server.js` variant and the part_002 multi-wallet
variant, `requestNonce` and `verify` leave every existing account's wallet
membership and position intact: the list of wallet keys of the store is
either unchanged or extended by exactly the one newly created account
(request-nonce on an unseen wallet); verification never changes it. -/
theorem C10_theorem (env : Env) (freshA freshB fresh2 fresh3 : String)
    (storeA storeA2 : List UserW) (storeM storeM2 : List UserM)
    (wIn wIn2 sIn wInM : Option String) (wM sM : String) :
    ((serverA.requestNonce freshA storeA wIn).2.map UserW.wallet =
        storeA.map UserW.wallet ∨
     (serverA.requestNonce freshA storeA wIn).2.map UserW.wallet =
        storeA.map UserW.wallet ++ [lowerStr (wIn.getD "")]) ∧
    (serverA.verify env fresh2 storeA2 wIn2 sIn).2.map UserW.wallet =
      storeA2.map UserW.wallet ∧
    ((mwV.requestNonce freshA freshB storeM wInM).2.map UserM.wallets =
        storeM.map UserM.wallets ∨
     (mwV.requestNonce freshA freshB storeM wInM).2.map UserM.wallets =
        storeM.map UserM.wallets ++ [[lowerStr (wInM.getD "")]]) ∧
    (mwV.verify env fresh3 storeM2 wM sM).2.map UserM.wallets =
      storeM2.map UserM.wallets := by
  refine ⟨?_, ?_, ?_, ?_⟩
  · rcases requestNonceA_store_cases freshA storeA wIn with h | h | h <;> rw [h]
    · left; rfl
    · right; simp
    · left; exact map_wallet_setNonceW _ _ _
  · rcases verifyA_frame env fresh2 storeA2 wIn2 sIn with h | h
    · rw [h.2.1]; exact map_wallet_setNonceW _ _ _
    · rw [h.2.1]
  · rcases requestNonceM_store_cases freshA freshB storeM wInM with h | h | h <;> rw [h]
    · left; rfl
    · right; rw [map_wallets_setNonceM]; simp
    · left; exact map_wallets_setNonceM _ _ _
  · rcases verifyM_frame env fresh3 storeM2 wM sM with h | h
    · rw [h.2]; exact map_wallets_setNonceM _ _ _
    · rw [h.2.1]
